import Mathlib

/-!
Shallow embedding of the vehicle lifecycle route handlers of the
carsense-backend repository (src/routes/vehicles-route.ts), together with
theorems settling the behavioural claims about them.

Timestamps are modelled as natural numbers; the database is a pair of lists
(vehicle rows and ownership-transfer rows) threaded through each handler
explicitly.  Each handler is a direct translation of the corresponding Hono
route handler: the same authorization checks in the same order, the same
query predicates, and the same write sets (including the soft-delete update
that carries no where-clause in the source).
-/

namespace CarSense

/-- User roles.  Modelled from the spec: the auth collaborator (not part of
the source tree) yields a user with a role of either user or admin. -/
inductive Role where
  | user
  | admin
deriving DecidableEq, Repr

/-- An authenticated user as injected by the session middleware.  Modelled
from the spec: the external auth entity has an id and a role. -/
structure User where
  id : String
  role : Role
deriving DecidableEq, Repr

/-- A vehicle row.  The columns the route logic reads or writes (id, uuid,
vin, ownerId, createdAt, updatedAt, deletedAt) are explicit; the remaining
scalar columns (make, model, year, ...) are collapsed into the single field
rest.  Modelled from the spec for the column list: the vehicles schema file
is not in the provided sources, the spec says a vehicle has a UUID, an
integer surrogate id, a VIN, an owner reference and a nullable deletedAt. -/
structure Vehicle where
  id : Nat
  uuid : String
  vin : String
  ownerId : String
  createdAt : Nat
  updatedAt : Nat
  deletedAt : Option Nat
  rest : String
deriving DecidableEq, Repr

/-- An ownership-transfer audit row: the create path records a vehicleId,
the update path records a vin (matching the two insert sites in the
route). -/
structure OwnershipTransfer where
  vehicleId : Option Nat
  vin : Option String
  fromUserId : String
  toUserId : String
  transferredAt : Nat
deriving DecidableEq, Repr

/-- The relational store visible to the vehicles route. -/
structure DB where
  vehicles : List Vehicle
  transfers : List OwnershipTransfer
deriving DecidableEq, Repr

/-- Result of GET /vehicles. -/
inductive ListResult where
  | unauthorized
  | ok (vehicles : List Vehicle)
deriving DecidableEq, Repr

/-- GET /vehicles: 401 without a user; otherwise one select whose where
clause is (role = user ? ownerId = user.id : no-op) AND deletedAt IS NULL,
exactly as built with and/eq/isNull in the source. -/
def getVehicles (muser : Option User) (db : DB) : ListResult :=
  match muser with
  | none => ListResult.unauthorized
  | some u =>
      ListResult.ok (db.vehicles.filter (fun v =>
        (if u.role = Role.user then v.ownerId == u.id else true)
          && v.deletedAt == none))

/-- The validated body of POST /vehicles: a vehicle payload including a VIN;
the other payload columns are collapsed into rest.  Modelled from the spec:
the zod insert schema file is not in the provided sources. -/
structure VehicleInsertBody where
  vin : String
  rest : String
deriving DecidableEq, Repr

/-- Result of POST /vehicles. -/
inductive CreateResult where
  | unauthorized
  | restored (vehicle : Vehicle)
  | created (vehicle : Vehicle)
deriving DecidableEq, Repr

/-- HTTP status attached to each POST / outcome: the handler sets 201 only
on the insert path; the reactivation path returns the default 200. -/
def createStatus : CreateResult → Nat
  | CreateResult.unauthorized => 401
  | CreateResult.restored _ => 200
  | CreateResult.created _ => 201

/-- The reactivation write of the VIN-reuse path: spread of the deleted row
with ownerId set to the caller, deletedAt cleared and updatedAt refreshed. -/
def reactivated (dv : Vehicle) (uid : String) (now : Nat) : Vehicle :=
  { dv with ownerId := uid, deletedAt := none, updatedAt := now }

/-- The row inserted by the create path: the posted payload with ownerId
set to the caller and the database-generated defaults (identity id, random
uuid, current timestamps, deletedAt null). -/
def freshVehicle (body : VehicleInsertBody) (uid : String)
    (now freshId : Nat) (freshUuid : String) : Vehicle :=
  { id := freshId, uuid := freshUuid, vin := body.vin, ownerId := uid,
    createdAt := now, updatedAt := now, deletedAt := none,
    rest := body.rest }

/-- POST /vehicles.  Translation of the create handler: select all rows
matching the VIN, take the first soft-deleted one; if found, insert a
transfer when its owner differs from the caller and reactivate it (update
where id = found.id); otherwise insert a fresh row owned by the caller.
freshId and freshUuid stand for the identity and uuid defaults the database
generates for the inserted row; now stands for the current time. -/
def postVehicle (muser : Option User) (body : VehicleInsertBody)
    (now freshId : Nat) (freshUuid : String) (db : DB) : CreateResult × DB :=
  match muser with
  | none => (CreateResult.unauthorized, db)
  | some u =>
      match (db.vehicles.filter (fun v => v.vin == body.vin)).find?
          (fun v => v.deletedAt != none) with
      | some dv =>
          (CreateResult.restored (reactivated dv u.id now),
           { vehicles := db.vehicles.map (fun v =>
               if v.id == dv.id then reactivated dv u.id now else v),
             transfers :=
               if dv.ownerId ≠ u.id then
                 db.transfers ++
                   [{ vehicleId := some dv.id, vin := none,
                      fromUserId := dv.ownerId, toUserId := u.id,
                      transferredAt := now }]
               else db.transfers })
      | none =>
          (CreateResult.created (freshVehicle body u.id now freshId freshUuid),
           { vehicles := db.vehicles ++
               [freshVehicle body u.id now freshId freshUuid],
             transfers := db.transfers })

/-- Result of GET /vehicles/:vehicleUUID. -/
inductive GetResult where
  | unauthorized
  | notFound
  | ok (vehicle : Vehicle)
deriving DecidableEq, Repr

/-- GET /vehicles/:vehicleUUID: fetch the first row with the given uuid (no
deletedAt predicate in the query); 404 when absent; 401 when the caller is
neither an admin nor the owner; otherwise the row as stored. -/
def getVehicleByUUID (muser : Option User) (uuid : String) (db : DB) :
    GetResult :=
  match muser with
  | none => GetResult.unauthorized
  | some u =>
      match db.vehicles.find? (fun v => v.uuid == uuid) with
      | none => GetResult.notFound
      | some vehicle =>
          if u.role ≠ Role.admin ∧ vehicle.ownerId ≠ u.id then
            GetResult.unauthorized
          else GetResult.ok vehicle

/-- The validated body of PATCH /vehicles/:vehicleUUID: the update schema
with uuid, createdAt, updatedAt omitted, every remaining field optional.
ownerId and vin are the fields the handler inspects; the other optional
columns are collapsed into rest.  A deletedAt entry of some x sets the
column to x (x itself optional, as the column is nullable). -/
structure VehicleUpdateBody where
  ownerId : Option String
  vin : Option String
  deletedAt : Option (Option Nat)
  rest : Option String
deriving DecidableEq, Repr

/-- JavaScript truthiness of the optional string field vehicleBody.ownerId
as used in the guard of the ownership-transfer branch: an absent field and
the empty string are falsy. -/
def truthyOwnerId : Option String → Bool
  | none => false
  | some s => s ≠ ""

/-- Application of a validated partial update to one row: each present
field overrides the stored value, absent fields leave it unchanged. -/
def applyUpdate (body : VehicleUpdateBody) (v : Vehicle) : Vehicle :=
  { v with
    ownerId := body.ownerId.getD v.ownerId,
    vin := body.vin.getD v.vin,
    deletedAt := body.deletedAt.getD v.deletedAt,
    rest := body.rest.getD v.rest }

/-- Result of PATCH /vehicles/:vehicleUUID. -/
inductive PatchResult where
  | unauthorized
  | notFound
  | forbidden
  | ok (vehicle : Vehicle)
deriving DecidableEq, Repr

/-- PATCH /vehicles/:vehicleUUID.  Translation of the update handler: fetch
by uuid (404 when absent); 401 when the caller is neither admin nor owner;
when the body carries a truthy ownerId different from the stored owner,
non-admins get 403 before any write and admins get a transfer row recorded;
then the partial update is applied where uuid matches and the first updated
row is returned. -/
def patchVehicle (muser : Option User) (uuid : String)
    (body : VehicleUpdateBody) (now : Nat) (db : DB) : PatchResult × DB :=
  match muser with
  | none => (PatchResult.unauthorized, db)
  | some u =>
      match db.vehicles.find? (fun v => v.uuid == uuid) with
      | none => (PatchResult.notFound, db)
      | some vehicle =>
          if u.role ≠ Role.admin ∧ vehicle.ownerId ≠ u.id then
            (PatchResult.unauthorized, db)
          else if truthyOwnerId body.ownerId
              ∧ body.ownerId ≠ some vehicle.ownerId then
            if u.role ≠ Role.admin then (PatchResult.forbidden, db)
            else
              (PatchResult.ok (applyUpdate body vehicle),
               { vehicles := db.vehicles.map (fun v =>
                   if v.uuid == uuid then applyUpdate body v else v),
                 transfers := db.transfers ++
                   [{ vehicleId := none, vin := some vehicle.vin,
                      fromUserId := vehicle.ownerId,
                      toUserId := body.ownerId.getD vehicle.ownerId,
                      transferredAt := now }] })
          else
            (PatchResult.ok (applyUpdate body vehicle),
             { db with vehicles := db.vehicles.map (fun v =>
                 if v.uuid == uuid then applyUpdate body v else v) })

/-- Result of DELETE /vehicles/:vehicleUUID. -/
inductive DeleteResult where
  | unauthorized
  | notFound
  | ok (vehicleUUID : String)
deriving DecidableEq, Repr

/-- DELETE /vehicles/:vehicleUUID.  Translation of the soft-delete handler:
fetch by uuid (404 when absent); 401 unless the caller is the current owner
(no admin special case); then the update setting deletedAt to now is issued
with no where-clause, exactly as in the source, so it writes every row. -/
def deleteVehicle (muser : Option User) (uuid : String) (now : Nat)
    (db : DB) : DeleteResult × DB :=
  match muser with
  | none => (DeleteResult.unauthorized, db)
  | some u =>
      match db.vehicles.find? (fun v => v.uuid == uuid) with
      | none => (DeleteResult.notFound, db)
      | some vehicle =>
          if vehicle.ownerId ≠ u.id then (DeleteResult.unauthorized, db)
          else
            (DeleteResult.ok vehicle.uuid,
             { db with vehicles := db.vehicles.map (fun v =>
                 { v with deletedAt := some now }) })

/-- Result of POST /vehicles/:vehicleUUID/restore. -/
inductive RestoreResult where
  | unauthorized
  | notFound
  | restored (vehicle : Vehicle)
deriving DecidableEq, Repr

/-- POST /vehicles/:vehicleUUID/restore.  Translation of the restore
handler: fetch by uuid (404 when absent); 401 unless the caller is the
current owner (no admin special case); then deletedAt is cleared and
updatedAt refreshed where uuid matches, and the first updated row is
returned. -/
def restoreVehicle (muser : Option User) (uuid : String) (now : Nat)
    (db : DB) : RestoreResult × DB :=
  match muser with
  | none => (RestoreResult.unauthorized, db)
  | some u =>
      match db.vehicles.find? (fun v => v.uuid == uuid) with
      | none => (RestoreResult.notFound, db)
      | some vehicle =>
          if vehicle.ownerId ≠ u.id then (RestoreResult.unauthorized, db)
          else
            (RestoreResult.restored
               { vehicle with deletedAt := none, updatedAt := now },
             { db with vehicles := db.vehicles.map (fun v =>
                 if v.uuid == uuid then
                   { v with deletedAt := none, updatedAt := now }
                 else v) })

/-! Concrete sample data used by the closed witness and counterexample
theorems. -/

/-- A non-admin user. -/
def uAlice : User := { id := "alice", role := Role.user }

/-- Another non-admin user. -/
def uBob : User := { id := "bob", role := Role.user }

/-- An admin user. -/
def uRoot : User := { id := "root", role := Role.admin }

/-- An active vehicle owned by alice. -/
def vA : Vehicle :=
  { id := 1, uuid := "uuid-a", vin := "VIN-A", ownerId := "alice",
    createdAt := 0, updatedAt := 0, deletedAt := none, rest := "golf" }

/-- An active vehicle owned by bob. -/
def vB : Vehicle :=
  { id := 2, uuid := "uuid-b", vin := "VIN-B", ownerId := "bob",
    createdAt := 0, updatedAt := 0, deletedAt := none, rest := "logan" }

/-- A soft-deleted vehicle owned by alice sharing the VIN of vA. -/
def vDel : Vehicle :=
  { id := 3, uuid := "uuid-c", vin := "VIN-A", ownerId := "alice",
    createdAt := 0, updatedAt := 1, deletedAt := some 5, rest := "passat" }

/-- A store holding the two active vehicles. -/
def dbAB : DB := { vehicles := [vA, vB], transfers := [] }

/-- A store holding an active and a soft-deleted vehicle with the same
VIN. -/
def dbWithDeleted : DB := { vehicles := [vA, vDel], transfers := [] }

/-! Claim theorems. -/

/-- C1: the claim states the soft-delete touches only the addressed row,
and the spec itself flags the missing where-clause as a latent bug.  On the
code the claim fails: a DELETE of vehicle uuid-a by its owner also stamps
deletedAt on the unrelated row vB, so rows other than the target are not
left unchanged. -/
theorem deleteVehicle_writes_unrelated_row :
    (deleteVehicle (some uAlice) "uuid-a" 100 dbAB).2.vehicles
      = [{ vA with deletedAt := some 100 }, { vB with deletedAt := some 100 }]
    ∧ { vB with deletedAt := some 100 } ≠ vB := by
  constructor
  · rfl
  · decide

/-- C2: GET /vehicles fails Unauthorized without a user; for a non-admin
caller it returns exactly the stored rows owned by the caller whose
deletedAt is null; for an admin it returns exactly the stored rows whose
deletedAt is null, regardless of owner. -/
theorem getVehicles_spec (u : User) (db : DB) :
    getVehicles none db = ListResult.unauthorized
    ∧ (u.role ≠ Role.admin →
        getVehicles (some u) db
          = ListResult.ok (db.vehicles.filter
              (fun v => v.ownerId == u.id && v.deletedAt == none)))
    ∧ (u.role = Role.admin →
        getVehicles (some u) db
          = ListResult.ok (db.vehicles.filter
              (fun v => v.deletedAt == none))) := by
  refine ⟨rfl, ?_, ?_⟩
  · intro h
    have hu : u.role = Role.user := by
      cases hr : u.role
      · rfl
      · exact absurd hr h
    simp [getVehicles, hu]
  · intro h
    simp [getVehicles, h]

/-- C2 witness: the non-admin clause of getVehicles_spec instantiated for
alice on the sample store. -/
theorem getVehicles_spec_witness :
    uAlice.role ≠ Role.admin
    ∧ getVehicles (some uAlice) dbAB
        = ListResult.ok (dbAB.vehicles.filter
            (fun v => v.ownerId == uAlice.id && v.deletedAt == none)) :=
  ⟨by decide, (getVehicles_spec uAlice dbAB).2.1 (by decide)⟩

/-- C3: when some row matching the posted VIN is soft-deleted (d being the
first such match, as the handler selects it), the create handler answers
restored with a vehicle whose deletedAt is cleared to null and whose
ownerId is the requester, and every row carrying the matched id in the
resulting store likewise has deletedAt null and ownerId the requester. -/
theorem postVehicle_vin_reuse_restores (u : User) (body : VehicleInsertBody)
    (now freshId : Nat) (freshUuid : String) (db : DB) (d : Vehicle)
    (hfind : (db.vehicles.filter (fun v => v.vin == body.vin)).find?
        (fun v => v.deletedAt != none) = some d) :
    (postVehicle (some u) body now freshId freshUuid db).1
        = CreateResult.restored
            { d with ownerId := u.id, deletedAt := none, updatedAt := now }
    ∧ ∀ w ∈ (postVehicle (some u) body now freshId freshUuid db).2.vehicles,
        w.id = d.id → w.deletedAt = none ∧ w.ownerId = u.id := by
  constructor
  · simp [postVehicle, hfind, reactivated]
  · intro w hw hid
    simp only [postVehicle, hfind] at hw
    rcases List.mem_map.mp hw with ⟨v, hv, rfl⟩
    by_cases hc : v.id = d.id
    · simp [beq_iff_eq, hc, reactivated]
    · simp [beq_iff_eq, hc] at hid

/-- C3 witness: bob posts the VIN of the soft-deleted row vDel; the theorem
instantiated there yields the restored response with cleared deletedAt and
bob as owner. -/
theorem postVehicle_vin_reuse_restores_witness :
    (postVehicle (some uBob) { vin := "VIN-A", rest := "passat" } 10 9
        "uuid-new" dbWithDeleted).1
      = CreateResult.restored
          { vDel with ownerId := uBob.id, deletedAt := none, updatedAt := 10 } :=
  (postVehicle_vin_reuse_restores uBob { vin := "VIN-A", rest := "passat" }
    10 9 "uuid-new" dbWithDeleted vDel (by decide)).1

/-- C4: in the VIN-reuse reactivation path (d the selected soft-deleted
match), exactly one OwnershipTransfer row is appended, carrying fromUserId
equal to the prior owner and toUserId equal to the requester, when the
prior owner differs from the requester; when they coincide the transfer
table is untouched. -/
theorem postVehicle_transfer_iff_owner_differs (u : User)
    (body : VehicleInsertBody) (now freshId : Nat) (freshUuid : String)
    (db : DB) (d : Vehicle)
    (hfind : (db.vehicles.filter (fun v => v.vin == body.vin)).find?
        (fun v => v.deletedAt != none) = some d) :
    (d.ownerId ≠ u.id →
      (postVehicle (some u) body now freshId freshUuid db).2.transfers
        = db.transfers ++
            [{ vehicleId := some d.id, vin := none, fromUserId := d.ownerId,
               toUserId := u.id, transferredAt := now }])
    ∧ (d.ownerId = u.id →
      (postVehicle (some u) body now freshId freshUuid db).2.transfers
        = db.transfers) := by
  constructor
  · intro h
    simp [postVehicle, hfind, h]
  · intro h
    simp [postVehicle, hfind, h]

/-- C4 witness: both clauses of postVehicle_transfer_iff_owner_differs at
concrete inputs: bob reactivating alice's deleted row appends exactly the
transfer from alice to bob, while alice reactivating her own deleted row
appends none. -/
theorem postVehicle_transfer_iff_owner_differs_witness :
    (postVehicle (some uBob) { vin := "VIN-A", rest := "x" } 10 9 "uuid-new"
        dbWithDeleted).2.transfers
      = [{ vehicleId := some vDel.id, vin := none, fromUserId := "alice",
           toUserId := "bob", transferredAt := 10 }]
    ∧ (postVehicle (some uAlice) { vin := "VIN-A", rest := "x" } 10 9
        "uuid-new" dbWithDeleted).2.transfers = [] :=
  ⟨(postVehicle_transfer_iff_owner_differs uBob
      { vin := "VIN-A", rest := "x" } 10 9 "uuid-new" dbWithDeleted vDel
      (by decide)).1 (by decide),
   (postVehicle_transfer_iff_owner_differs uAlice
      { vin := "VIN-A", rest := "x" } 10 9 "uuid-new" dbWithDeleted vDel
      (by decide)).2 (by decide)⟩

/-- C5: when no stored row, active or deleted, carries the posted VIN, the
create handler inserts one new row owned by the caller bearing the freshly
generated uuid (distinct from every stored uuid when the generator is
fresh) and answers created with HTTP status 201. -/
theorem postVehicle_fresh_vin_creates (u : User) (body : VehicleInsertBody)
    (now freshId : Nat) (freshUuid : String) (db : DB)
    (hvin : ∀ v ∈ db.vehicles, v.vin ≠ body.vin)
    (hfresh : ∀ v ∈ db.vehicles, v.uuid ≠ freshUuid) :
    (postVehicle (some u) body now freshId freshUuid db).1
        = CreateResult.created (freshVehicle body u.id now freshId freshUuid)
    ∧ createStatus (postVehicle (some u) body now freshId freshUuid db).1
        = 201
    ∧ (freshVehicle body u.id now freshId freshUuid).ownerId = u.id
    ∧ (postVehicle (some u) body now freshId freshUuid db).2.vehicles
        = db.vehicles ++ [freshVehicle body u.id now freshId freshUuid]
    ∧ ∀ v ∈ db.vehicles,
        v.uuid ≠ (freshVehicle body u.id now freshId freshUuid).uuid := by
  have hfilter : db.vehicles.filter (fun v => v.vin == body.vin) = [] := by
    rw [List.filter_eq_nil_iff]
    intro a ha
    simp [beq_iff_eq]
    exact hvin a ha
  have hfind : (db.vehicles.filter (fun v => v.vin == body.vin)).find?
      (fun v => v.deletedAt != none) = none := by
    rw [hfilter]; rfl
  refine ⟨?_, ?_, rfl, ?_, ?_⟩
  · simp [postVehicle, hfind]
  · simp [postVehicle, hfind, createStatus]
  · simp [postVehicle, hfind]
  · intro v hv
    exact hfresh v hv

/-- C5 witness: bob posts an unseen VIN on the sample store; the theorem
instantiated there yields the created response, status 201 and the appended
fresh row. -/
theorem postVehicle_fresh_vin_creates_witness :
    (postVehicle (some uBob) { vin := "VIN-NEW", rest := "clio" } 20 9
        "uuid-new" dbAB).1
      = CreateResult.created
          (freshVehicle { vin := "VIN-NEW", rest := "clio" } uBob.id 20 9
            "uuid-new")
    ∧ createStatus (postVehicle (some uBob)
        { vin := "VIN-NEW", rest := "clio" } 20 9 "uuid-new" dbAB).1
        = 201 := by
  have h := postVehicle_fresh_vin_creates uBob
    { vin := "VIN-NEW", rest := "clio" } 20 9 "uuid-new" dbAB
    (by decide) (by decide)
  exact ⟨h.1, h.2.1⟩

/-- C6 counterexample: the claim quantifies over every authenticated
non-admin caller, but a non-admin caller who is not the owner is stopped by
the ownership check first and receives Unauthorized 401, not Forbidden 403:
bob (role user, not the owner of vA) patching vA with ownerId bob gets
unauthorized. -/
theorem patchVehicle_nonadmin_transfer_not_always_forbidden :
    truthyOwnerId (some "bob") = true
    ∧ (some "bob" : Option String) ≠ some vA.ownerId
    ∧ uBob.role ≠ Role.admin
    ∧ (patchVehicle (some uBob) "uuid-a"
        { ownerId := some "bob", vin := none, deletedAt := none, rest := none }
        50 dbAB).1 = PatchResult.unauthorized
    ∧ PatchResult.unauthorized ≠ PatchResult.forbidden := by
  decide

/-- C6 amended: for every authenticated non-admin caller who owns the
vehicle, an update whose payload carries a truthy (present, non-empty)
ownerId different from the stored owner fails with Forbidden 403, and on
that failure no OwnershipTransfer row is created and no vehicle row is
changed (the store is returned untouched). -/
theorem patchVehicle_owner_transfer_forbidden (u : User) (uuid : String)
    (body : VehicleUpdateBody) (now : Nat) (db : DB) (v : Vehicle)
    (hfind : db.vehicles.find? (fun x => x.uuid == uuid) = some v)
    (howner : v.ownerId = u.id) (hrole : u.role ≠ Role.admin)
    (htruthy : truthyOwnerId body.ownerId = true)
    (hdiff : body.ownerId ≠ some v.ownerId) :
    patchVehicle (some u) uuid body now db = (PatchResult.forbidden, db) := by
  have hdiff2 : body.ownerId ≠ some u.id := howner ▸ hdiff
  simp [patchVehicle, hfind, howner, hrole, htruthy, hdiff2]

/-- C6 amended witness: alice (role user, owner of vA) patching vA with
ownerId bob is answered Forbidden and the store is unchanged. -/
theorem patchVehicle_owner_transfer_forbidden_witness :
    patchVehicle (some uAlice) "uuid-a"
      { ownerId := some "bob", vin := none, deletedAt := none, rest := none }
      50 dbAB = (PatchResult.forbidden, dbAB) :=
  patchVehicle_owner_transfer_forbidden uAlice "uuid-a"
    { ownerId := some "bob", vin := none, deletedAt := none, rest := none }
    50 dbAB vA (by decide) (by decide) (by decide) (by decide) (by decide)

/-- C7: soft-delete and restore gate on owner identity only, with no role
special case: any caller (admin included) who is not the stored owner gets
Unauthorized from both and the store is untouched, while the owner
succeeds on both. -/
theorem deleteRestore_owner_identity_only (u : User) (uuid : String)
    (now : Nat) (db : DB) (v : Vehicle)
    (hfind : db.vehicles.find? (fun x => x.uuid == uuid) = some v) :
    (v.ownerId ≠ u.id →
      deleteVehicle (some u) uuid now db = (DeleteResult.unauthorized, db)
      ∧ restoreVehicle (some u) uuid now db
          = (RestoreResult.unauthorized, db))
    ∧ (v.ownerId = u.id →
      (deleteVehicle (some u) uuid now db).1 = DeleteResult.ok v.uuid
      ∧ (restoreVehicle (some u) uuid now db).1
          = RestoreResult.restored
              { v with deletedAt := none, updatedAt := now }) := by
  constructor
  · intro h
    refine ⟨?_, ?_⟩
    · simp [deleteVehicle, hfind, h]
    · simp [restoreVehicle, hfind, h]
  · intro h
    refine ⟨?_, ?_⟩
    · simp [deleteVehicle, hfind, h]
    · simp [restoreVehicle, hfind, h]

/-- C7 witness: the admin root is not the owner of vA, and both the delete
and the restore of vA by root are answered Unauthorized with the store
untouched. -/
theorem deleteRestore_owner_identity_only_witness :
    vA.ownerId ≠ uRoot.id
    ∧ deleteVehicle (some uRoot) "uuid-a" 100 dbAB
        = (DeleteResult.unauthorized, dbAB)
    ∧ restoreVehicle (some uRoot) "uuid-a" 100 dbAB
        = (RestoreResult.unauthorized, dbAB) := by
  have h := (deleteRestore_owner_identity_only uRoot "uuid-a" 100 dbAB vA
    (by decide)).1 (by decide)
  exact ⟨by decide, h.1, h.2⟩

/-- C8: delete-then-restore round trip by the owner: restoring the vehicle
right after soft-deleting it returns a record equal to the prior row in
every field except deletedAt, which is null, and updatedAt, which is
refreshed to the restore time. -/
theorem delete_restore_roundtrip (u : User) (uuid : String) (t1 t2 : Nat)
    (db : DB) (v : Vehicle)
    (hfind : db.vehicles.find? (fun x => x.uuid == uuid) = some v)
    (howner : v.ownerId = u.id) :
    (restoreVehicle (some u) uuid t2
        (deleteVehicle (some u) uuid t1 db).2).1
      = RestoreResult.restored
          { v with deletedAt := none, updatedAt := t2 } := by
  have hdel : (deleteVehicle (some u) uuid t1 db).2.vehicles
      = db.vehicles.map (fun w => { w with deletedAt := some t1 }) := by
    simp [deleteVehicle, hfind, howner]
  have hfind2 : ((deleteVehicle (some u) uuid t1 db).2.vehicles).find?
      (fun x => x.uuid == uuid) = some { v with deletedAt := some t1 } := by
    rw [hdel, List.find?_map]
    have hcomp : (fun x : Vehicle => x.uuid == uuid)
          ∘ (fun w : Vehicle => { w with deletedAt := some t1 })
        = fun w : Vehicle => w.uuid == uuid := rfl
    rw [hcomp, hfind]
    rfl
  simp [restoreVehicle, hfind2, howner]

/-- C8 witness: alice deletes vA at time 100 and restores it at time 200;
the returned record is vA with deletedAt null and updatedAt 200. -/
theorem delete_restore_roundtrip_witness :
    (restoreVehicle (some uAlice) "uuid-a" 200
        (deleteVehicle (some uAlice) "uuid-a" 100 dbAB).2).1
      = RestoreResult.restored
          { vA with deletedAt := none, updatedAt := 200 } :=
  delete_restore_roundtrip uAlice "uuid-a" 100 200 dbAB vA
    (by decide) (by decide)

/-- C9: active-VIN collision is not rejected: when every stored row
matching the posted VIN is active (deletedAt null), the create handler
proceeds to the insert path, appending a fresh row with that VIN and
answering created; and whenever the selection of the first soft-deleted
VIN match yields a row d, the reactivation branch runs on exactly that
d. -/
theorem postVehicle_active_collision_not_rejected (u : User)
    (body : VehicleInsertBody) (now freshId : Nat) (freshUuid : String)
    (db : DB) :
    ((∀ v ∈ db.vehicles, v.vin = body.vin → v.deletedAt = none) →
      (postVehicle (some u) body now freshId freshUuid db).1
          = CreateResult.created
              (freshVehicle body u.id now freshId freshUuid)
      ∧ (postVehicle (some u) body now freshId freshUuid db).2.vehicles
          = db.vehicles ++ [freshVehicle body u.id now freshId freshUuid])
    ∧ (∀ d, (db.vehicles.filter (fun v => v.vin == body.vin)).find?
          (fun v => v.deletedAt != none) = some d →
        (postVehicle (some u) body now freshId freshUuid db).1
          = CreateResult.restored (reactivated d u.id now)) := by
  constructor
  · intro h
    have hfind : (db.vehicles.filter (fun v => v.vin == body.vin)).find?
        (fun v => v.deletedAt != none) = none := by
      rw [List.find?_eq_none]
      intro x hx
      rcases List.mem_filter.mp hx with ⟨hxm, hxv⟩
      have hxe : x.vin = body.vin := by simpa [beq_iff_eq] using hxv
      have hnone := h x hxm hxe
      simp [hnone]
    refine ⟨?_, ?_⟩
    · simp [postVehicle, hfind]
    · simp [postVehicle, hfind]
  · intro d hfind
    simp [postVehicle, hfind]

/-- C9 witness: bob posts VIN-A against a store where the sole VIN-A row is
active, getting the created path, and against a store where a soft-deleted
VIN-A row exists, getting the reactivation of exactly that row. -/
theorem postVehicle_active_collision_not_rejected_witness :
    (postVehicle (some uBob) { vin := "VIN-A", rest := "x" } 30 9 "uuid-new"
        dbAB).1
      = CreateResult.created
          (freshVehicle { vin := "VIN-A", rest := "x" } uBob.id 30 9
            "uuid-new")
    ∧ (postVehicle (some uBob) { vin := "VIN-A", rest := "x" } 30 9
        "uuid-new" dbWithDeleted).1
      = CreateResult.restored (reactivated vDel uBob.id 30) :=
  ⟨((postVehicle_active_collision_not_rejected uBob
      { vin := "VIN-A", rest := "x" } 30 9 "uuid-new" dbAB).1
      (by decide)).1,
   (postVehicle_active_collision_not_rejected uBob
      { vin := "VIN-A", rest := "x" } 30 9 "uuid-new" dbWithDeleted).2 vDel
      (by decide)⟩

/-- C10: the single-vehicle fetch applies no deletedAt filter: with an
authenticated caller the NotFound answer occurs exactly when no stored row
bears the uuid, and any found row, soft-deleted or not, is returned as
stored (its deletedAt intact) whenever the caller is an admin or the
owner. -/
theorem getVehicleByUUID_ignores_deletedAt (u : User) (uuid : String)
    (db : DB) :
    (getVehicleByUUID (some u) uuid db = GetResult.notFound
      ↔ db.vehicles.find? (fun x => x.uuid == uuid) = none)
    ∧ ∀ v, db.vehicles.find? (fun x => x.uuid == uuid) = some v →
        (u.role = Role.admin ∨ v.ownerId = u.id) →
        getVehicleByUUID (some u) uuid db = GetResult.ok v := by
  constructor
  · constructor
    · intro h
      cases hf : db.vehicles.find? (fun x => x.uuid == uuid) with
      | none => rfl
      | some v =>
          exfalso
          by_cases hc : u.role ≠ Role.admin ∧ v.ownerId ≠ u.id
          · simp [getVehicleByUUID, hf, hc] at h
          · simp [getVehicleByUUID, hf, hc] at h
    · intro h
      simp [getVehicleByUUID, h]
  · intro v hf hauth
    rcases hauth with h | h
    · simp [getVehicleByUUID, hf, h]
    · simp [getVehicleByUUID, hf, h]

/-- C10 witness: the soft-deleted row vDel is returned as stored, with its
non-null deletedAt, when its owner alice fetches it by uuid. -/
theorem getVehicleByUUID_ignores_deletedAt_witness :
    getVehicleByUUID (some uAlice) "uuid-c" dbWithDeleted
      = GetResult.ok vDel
    ∧ vDel.deletedAt = some 5 :=
  ⟨(getVehicleByUUID_ignores_deletedAt uAlice "uuid-c" dbWithDeleted).2 vDel
     (by decide) (Or.inr (by decide)), by decide⟩

end CarSense
